import Mathlib

/-!
Shallow embedding of the Library Management System's circulation core
(`library_service.py`) and proofs about it.

Modelling conventions:
- Python strings are embedded as `List Char` (`Str`), so that every string
  operation reduces inside the kernel.
- Timestamps are embedded at calendar-day granularity as `Int` day numbers:
  the source always compares `datetime.date()` values and takes `.days` of
  differences, so a day number is sufficient.
- Currency amounts are embedded as `ℚ`; Python's `round(x, 2)` is embedded
  as `round2`.  All fee amounts arising in the source are integer multiples
  of 1/2, on which rounding to two decimals is exact, so the binary-float
  representation of the source introduces no divergence on these values.
- The storage layer (`database` module, not part of the sources at hand) is
  modelled from the spec's Storage Gateway contract as a pure state
  `LibraryState`; each fallible write takes an explicit success flag so that
  storage failures can be analysed.
-/

abbrev Str := List Char

/-- Embeds Python `round(q, 2)`: round to two decimal places.  (Python uses
banker's rounding; all values this development rounds are exact multiples of
1/100, where the two conventions agree.) -/
def round2 (q : ℚ) : ℚ := (round (q * 100) : ℤ) / 100

/-- Embeds Python `str.isdigit()` (restricted to ASCII digits, the only
characters the repository feeds it): true iff nonempty and all digits. -/
def pyIsDigit (s : Str) : Bool := !s.isEmpty && s.all Char.isDigit

/-- Embeds Python `str.strip()`: drop whitespace from both ends. -/
def pyStrip (s : Str) : Str :=
  ((s.dropWhile Char.isWhitespace).reverse.dropWhile Char.isWhitespace).reverse

/-- Embeds Python `str.lower()`. -/
def pyLower (s : Str) : Str := s.map Char.toLower

/-- Auxiliary: does `needle` occur at the head of the second list? -/
def startsWith : Str → Str → Bool
  | [], _ => true
  | _ :: _, [] => false
  | a :: as, b :: bs => a == b && startsWith as bs

/-- Auxiliary: does `needle` occur as a contiguous substring? -/
def containsSub (needle : Str) : Str → Bool
  | [] => needle.isEmpty
  | c :: t => startsWith needle (c :: t) || containsSub needle t

/-- Embeds the SQL pattern `field LIKE '%term%' COLLATE NOCASE` used by the
search query (for wildcard-free terms, as the spec describes it):
case-insensitive substring match. -/
def likeMatch (term field : Str) : Bool :=
  containsSub (pyLower term) (pyLower field)

/-- Lexicographic comparison on code points, embedding the SQL
`ORDER BY title` comparison on the ASCII titles used here. -/
def leChars : Str → Str → Bool
  | [], _ => true
  | _ :: _, [] => false
  | a :: as, b :: bs =>
    if a.val < b.val then true else if b.val < a.val then false else leChars as bs

/-- Patron-id validation shared by every service entry point: embeds
`not patron_id or not patron_id.isdigit() or len(patron_id) != 6` (negated). -/
def isValidPatronId (s : Str) : Bool :=
  !s.isEmpty && pyIsDigit s && s.length == 6

/-- A row of the `books` table. -/
structure Book where
  id : Nat
  title : Str
  author : Str
  isbn : Str
  total_copies : Int
  available_copies : Int
deriving DecidableEq

/-- A row of the `borrow_records` table; `return_date = none` is an open loan. -/
structure BorrowRecord where
  patron_id : Str
  book_id : Nat
  borrow_date : Int
  due_date : Int
  return_date : Option Int
deriving DecidableEq

/-- Modelled from the spec: the Storage Gateway's visible state (the
`database` module is not among the sources; §6 of the spec gives its
contract).  `nextId` is the storage-assigned id counter. -/
structure LibraryState where
  books : List Book
  records : List BorrowRecord
  nextId : Nat
deriving DecidableEq

/-- Modelled from the spec: `get_book(id) → Book | absent`. -/
def get_book_by_id (st : LibraryState) (book_id : Nat) : Option Book :=
  st.books.find? (fun b => b.id == book_id)

/-- Modelled from the spec: `get_book(isbn) → Book | absent`. -/
def get_book_by_isbn (st : LibraryState) (isbn : Str) : Option Book :=
  st.books.find? (fun b => b.isbn == isbn)

/-- Modelled from the spec: `insert_book(title, author, isbn, total,
available)`; storage assigns the next id. -/
def insert_book (st : LibraryState) (title author isbn : Str)
    (total available : Int) : LibraryState :=
  { st with
    books := st.books ++ [⟨st.nextId, title, author, isbn, total, available⟩],
    nextId := st.nextId + 1 }

/-- Modelled from the spec: `update_available_copies(book_id, delta)`. -/
def update_book_availability (st : LibraryState) (book_id : Nat) (delta : Int) :
    LibraryState :=
  { st with
    books := st.books.map (fun b =>
      if b.id == book_id then
        { b with available_copies := b.available_copies + delta }
      else b) }

/-- Modelled from the spec: `insert_borrow_record(patron, book, borrow_date,
due_date)`; the new record is open. -/
def insert_borrow_record (st : LibraryState) (patron : Str) (book_id : Nat)
    (borrow due : Int) : LibraryState :=
  { st with records := st.records ++ [⟨patron, book_id, borrow, due, none⟩] }

/-- Is a borrow record an open loan? -/
def recordOpen (r : BorrowRecord) : Bool := r.return_date.isNone

/-- Helper for `update_borrow_record_return_date`: close the first open
record of the given patron and book. -/
def closeFirstOpen (patron : Str) (book_id : Nat) (date : Int) :
    List BorrowRecord → List BorrowRecord
  | [] => []
  | r :: rs =>
    if r.patron_id == patron && r.book_id == book_id && recordOpen r then
      { r with return_date := some date } :: rs
    else r :: closeFirstOpen patron book_id date rs

/-- Modelled from the spec: `set_return_date(patron, book, return_date)` sets
the return date on the open record of that patron/book pair (§4.2 step 3:
"Set return_date = now on that record"). -/
def update_borrow_record_return_date (st : LibraryState) (patron : Str)
    (book_id : Nat) (date : Int) : LibraryState :=
  { st with records := closeFirstOpen patron book_id date st.records }

/-- Modelled from the spec: `list_open_loans(patron)` — the patron's
currently open borrow records, in storage order. -/
def get_patron_borrowed_books (st : LibraryState) (patron : Str) :
    List BorrowRecord :=
  st.records.filter (fun r => r.patron_id == patron && recordOpen r)

/-- Modelled from the spec: `count_open_loans(patron)`. -/
def get_patron_borrow_count (st : LibraryState) (patron : Str) : Nat :=
  (get_patron_borrowed_books st patron).length

/-- Modelled from the spec: the overdue flag annotated on each open loan
(§4.4: "each annotated with an overdue flag (due_date < now)"). -/
def is_overdue (r : BorrowRecord) (now : Int) : Bool := r.due_date < now

/-- Status classification of a fee result (`status` string of the source). -/
inductive FeeStatus
  | invalidPatron
  | bookNotFound
  | notBorrowedByPatron
  | notOverdue
  | lateFeeCalculated
deriving DecidableEq

/-- The dict returned by `calculate_late_fee_for_book`. -/
structure FeeResult where
  fee_amount : ℚ
  days_overdue : Int
  status : FeeStatus
deriving DecidableEq

/-- The tier arithmetic of `calculate_late_fee_for_book` (lines 227-231):
$0.50/day for the first 7 days, $1.00/day beyond. -/
def lateFeeTier (days_overdue : Int) : ℚ :=
  if days_overdue ≤ 7 then (days_overdue : ℚ) * (1 / 2)
  else 7 * (1 / 2) + ((days_overdue - 7 : ℤ) : ℚ) * 1

/-- The date-dependent core of `calculate_late_fee_for_book` (lines 213-240):
compare current date to due date, apply the tier arithmetic, cap at $15.00,
round to 2 decimals. -/
def calculate_late_fee_core (due now : Int) : FeeResult :=
  if now ≤ due then ⟨0, 0, .notOverdue⟩
  else ⟨round2 (min (lateFeeTier (now - due)) 15), now - due, .lateFeeCalculated⟩

/-- Embeds `calculate_late_fee_for_book(patron_id, book_id)` with the
current date passed explicitly. -/
def calculate_late_fee_for_book (st : LibraryState) (patron : Str)
    (book_id : Nat) (now : Int) : FeeResult :=
  if !(isValidPatronId patron) then ⟨0, 0, .invalidPatron⟩
  else
    match get_book_by_id st book_id with
    | none => ⟨0, 0, .bookNotFound⟩
    | some _ =>
      match (get_patron_borrowed_books st patron).find?
          (fun r => r.book_id == book_id) with
      | none => ⟨0, 0, .notBorrowedByPatron⟩
      | some rec0 => calculate_late_fee_core rec0.due_date now

/-- The days-overdue quantity as the spec words it:
`max(0, calendar-day difference between now and due_date)`. -/
def specDaysOverdue (due now : Int) : Int := max 0 (now - due)

/-- The spec's closed-form fee formula, written from the spec's words:
`min(15.00, 0.50 * min(days_overdue, 7) + 1.00 * max(0, days_overdue - 7))`. -/
def specTieredFee (days_overdue : Int) : ℚ :=
  min 15 ((1 / 2) * ((min days_overdue 7 : ℤ) : ℚ)
    + 1 * ((max 0 (days_overdue - 7) : ℤ) : ℚ))

theorem capped_tier_eq_spec (d : Int) :
    min (lateFeeTier d) 15 = specTieredFee d := by
  rcases le_or_lt d 7 with h | h
  · rw [specTieredFee, lateFeeTier, if_pos h, min_eq_left h,
      max_eq_left (by omega : d - 7 ≤ 0), min_comm]
    push_cast
    ring_nf
  · rw [specTieredFee, lateFeeTier, if_neg (by omega),
      min_eq_right (by omega : (7 : ℤ) ≤ d),
      max_eq_right (by omega : (0 : ℤ) ≤ d - 7), min_comm]
    push_cast
    ring_nf

/-- C1: for every due date and current date, the computed overdue fee equals
`min(15.00, 0.50 * min(days_overdue, 7) + 1.00 * max(0, days_overdue - 7))`
rounded to 2 decimals, where `days_overdue = max(0, now - due_date)`; in
particular 5 days overdue yields 2.50, 7 days yields 3.50, 10 days yields
6.50, 30 days yields 15.00 (capped), and a not-yet-due loan yields 0.00 with
zero days overdue. -/
theorem tiered_fee_matches_spec_formula :
    (∀ due now : Int,
      (calculate_late_fee_core due now).days_overdue = specDaysOverdue due now ∧
      (calculate_late_fee_core due now).fee_amount
        = round2 (specTieredFee (specDaysOverdue due now))) ∧
    (calculate_late_fee_core 0 5).fee_amount = 5/2 ∧
    (calculate_late_fee_core 0 7).fee_amount = 7/2 ∧
    (calculate_late_fee_core 0 10).fee_amount = 13/2 ∧
    (calculate_late_fee_core 0 30).fee_amount = 15 ∧
    (calculate_late_fee_core 1 0).fee_amount = 0 ∧
    (calculate_late_fee_core 1 0).days_overdue = 0 := by
  constructor
  · intro due now
    unfold calculate_late_fee_core specDaysOverdue
    split
    · rename_i h
      constructor
      · simp [max_eq_left (by omega : now - due ≤ 0)]
      · rw [max_eq_left (by omega : now - due ≤ 0)]
        simp [specTieredFee, round2]
    · rename_i h
      rw [max_eq_right (by omega : (0 : ℤ) ≤ now - due)]
      exact ⟨rfl, congrArg round2 (capped_tier_eq_spec (now - due))⟩
  · refine ⟨?_, ?_, ?_, ?_, ?_, rfl⟩ <;>
      norm_num [calculate_late_fee_core, lateFeeTier, round2]

/-- Outcome classes of `add_book_to_catalog` (its message strings). -/
inductive AddResult
  | titleRequired
  | titleTooLong
  | authorRequired
  | authorTooLong
  | isbnFormat
  | copiesInvalid
  | duplicateIsbn
  | dbError
  | added
deriving DecidableEq

/-- Embeds `add_book_to_catalog(title, author, isbn, total_copies)`.
`insertOk` is the success flag of the storage insert.  (The source's
`isinstance(total_copies, int)` guard is absorbed by the `Int` type of the
argument; the ISBN guard is the source's length-only check.) -/
def add_book_to_catalog (st : LibraryState) (title author isbn : Str)
    (total_copies : Int) (insertOk : Bool) : AddResult × LibraryState :=
  if (pyStrip title).isEmpty then (.titleRequired, st)
  else if 200 < (pyStrip title).length then (.titleTooLong, st)
  else if (pyStrip author).isEmpty then (.authorRequired, st)
  else if 100 < (pyStrip author).length then (.authorTooLong, st)
  else if isbn.length ≠ 13 then (.isbnFormat, st)
  else if total_copies ≤ 0 then (.copiesInvalid, st)
  else if (get_book_by_isbn st isbn).isSome then (.duplicateIsbn, st)
  else if insertOk then
    (.added, insert_book st (pyStrip title) (pyStrip author) isbn
      total_copies total_copies)
  else (.dbError, st)

/-- Outcome classes of `borrow_book_by_patron` (its message strings; the
success message carries the data interpolated into it). -/
inductive BorrowResult
  | invalidPatron
  | bookNotFound
  | notAvailable
  | limitExceeded
  | dbBorrowRecord
  | dbAvailability
  | borrowed (title : Str) (due : Int)
deriving DecidableEq

/-- Embeds `borrow_book_by_patron(patron_id, book_id)` with the current day
passed explicitly; `insertOk` and `updateOk` are the success flags of the two
storage writes, in source order (record insert, then availability update). -/
def borrow_book_by_patron (st : LibraryState) (patron : Str) (book_id : Nat)
    (now : Int) (insertOk updateOk : Bool) : BorrowResult × LibraryState :=
  if !(isValidPatronId patron) then (.invalidPatron, st)
  else
    match get_book_by_id st book_id with
    | none => (.bookNotFound, st)
    | some book =>
      if book.available_copies ≤ 0 then (.notAvailable, st)
      else if 5 < get_patron_borrow_count st patron then (.limitExceeded, st)
      else if !insertOk then (.dbBorrowRecord, st)
      else
        let st1 := insert_borrow_record st patron book_id now (now + 14)
        if !updateOk then (.dbAvailability, st1)
        else (.borrowed book.title (now + 14),
          update_book_availability st1 book_id (-1))

/-- The return-time late fee of `return_book_by_patron` (line 162):
`days_late * 0.50`, with no cap. -/
def returnLateFeeAmount (days_late : Int) : ℚ := (days_late : ℚ) * (1 / 2)

/-- Outcome classes of `return_book_by_patron` (its message strings; the
late-return message carries the days late and fee interpolated into it). -/
inductive ReturnResult
  | invalidPatron
  | bookNotFound
  | notBorrowedByPatron
  | dbReturnRecord
  | dbAvailability
  | returnedLate (days_late : Int) (fee : ℚ)
  | returnedOnTime (title : Str)
deriving DecidableEq

/-- Embeds `return_book_by_patron(patron_id, book_id)` with the current day
passed explicitly; `updOk` and `availOk` are the success flags of the two
storage writes, in source order (return-date update, then availability). -/
def return_book_by_patron (st : LibraryState) (patron : Str) (book_id : Nat)
    (now : Int) (updOk availOk : Bool) : ReturnResult × LibraryState :=
  if !(isValidPatronId patron) then (.invalidPatron, st)
  else
    match get_book_by_id st book_id with
    | none => (.bookNotFound, st)
    | some book =>
      match (get_patron_borrowed_books st patron).find?
          (fun r => r.book_id == book_id) with
      | none => (.notBorrowedByPatron, st)
      | some rec0 =>
        if !updOk then (.dbReturnRecord, st)
        else
          let st1 := update_borrow_record_return_date st patron book_id now
          if !availOk then (.dbAvailability, st1)
          else
            let st2 := update_book_availability st1 book_id 1
            if rec0.due_date < now then
              (.returnedLate (now - rec0.due_date)
                (returnLateFeeAmount (now - rec0.due_date)), st2)
            else (.returnedOnTime book.title, st2)

/-- Insertion step for the title ordering of search results. -/
def insertByTitle (b : Book) : List Book → List Book
  | [] => [b]
  | c :: t =>
    if leChars b.title c.title then b :: c :: t else c :: insertByTitle b t

/-- Embeds the query's `ORDER BY title` as an insertion sort. -/
def sortByTitle : List Book → List Book
  | [] => []
  | b :: t => insertByTitle b (sortByTitle t)

/-- Embeds `search_books_in_catalog(search_term, search_type)`: exact match
on isbn, case-insensitive substring on title or author, ordered by title;
blank terms and unrecognized types yield an empty result. -/
def search_books_in_catalog (st : LibraryState) (term ty : Str) : List Book :=
  if (pyStrip term).isEmpty then []
  else if !(ty == ("title").data || ty == ("author").data
      || ty == ("isbn").data) then []
  else
    if ty == ("isbn").data then
      sortByTitle (st.books.filter (fun b => b.isbn == pyStrip term))
    else if ty == ("title").data then
      sortByTitle (st.books.filter (fun b => likeMatch (pyStrip term) b.title))
    else
      sortByTitle (st.books.filter (fun b => likeMatch (pyStrip term) b.author))

/-- The fields of `get_patron_status_report` that the development reasons
about (the formatted history listing carries no further arithmetic content
and is omitted). -/
structure PatronReport where
  error : Bool
  current_books : List BorrowRecord
  total_borrowed : Nat
  total_fees : ℚ
deriving DecidableEq

/-- Embeds `get_patron_status_report(patron_id)` with the current day passed
explicitly: sums the Fee Calculator's `fee_amount` over the overdue current
loans and rounds the total to 2 decimals. -/
def get_patron_status_report (st : LibraryState) (patron : Str) (now : Int) :
    PatronReport :=
  if !(isValidPatronId patron) then ⟨true, [], 0, 0⟩
  else
    let current := get_patron_borrowed_books st patron
    let total := (current.map (fun r =>
      if is_overdue r now then
        (calculate_late_fee_for_book st patron r.book_id now).fee_amount
      else 0)).sum
    ⟨false, current, current.length, round2 total⟩

/-- C4: the source's ISBN validation checks only the length.  This input —
taken from the repository's own test suite (`test_add_book_isbn_with_letters`,
which expects rejection with the "13 digits" message) — is 13 characters with
a letter, yet `add` accepts it and inserts the book. -/
theorem isbn_letters_accepted :
    (add_book_to_catalog ⟨[], [], 1⟩ ("Valid Title").data ("Valid Author").data
      ("123456789012A").data 1 true).fst = .added := by decide

/-- C3: with a valid patron id and an available existing book, borrow is
rejected with the limit-exceeded message exactly when the patron's open-loan
count is strictly greater than 5; with exactly 5 open loans a 6th borrow
succeeds. -/
theorem borrow_limit_boundary (st : LibraryState) (patron : Str)
    (book_id : Nat) (now : Int) (insertOk updateOk : Bool) (book : Book)
    (hp : isValidPatronId patron = true)
    (hb : get_book_by_id st book_id = some book)
    (ha : 0 < book.available_copies) :
    ((borrow_book_by_patron st patron book_id now insertOk updateOk).fst
        = .limitExceeded
      ↔ 5 < get_patron_borrow_count st patron) ∧
    (get_patron_borrow_count st patron = 5 →
      (borrow_book_by_patron st patron book_id now true true).fst
        = .borrowed book.title (now + 14)) := by
  have hav : ¬ book.available_copies ≤ 0 := by omega
  constructor
  · rcases lt_or_le 5 (get_patron_borrow_count st patron) with h5 | h5
    · simp [borrow_book_by_patron, hp, hb, hav, h5]
    · have h5n : ¬ 5 < get_patron_borrow_count st patron := not_lt.mpr h5
      cases insertOk <;> cases updateOk <;>
        simp [borrow_book_by_patron, hp, hb, hav, h5n]
  · intro h5
    simp [borrow_book_by_patron, hp, hb, hav, h5]

/-- Concrete fixture: a patron holding exactly 5 open loans, and an
available book. -/
def stLimit : LibraryState :=
  ⟨[⟨1, ("B").data, ("A").data, ("9781111111111").data, 10, 10⟩],
   [⟨("123456").data, 2, 0, 14, none⟩, ⟨("123456").data, 3, 0, 14, none⟩,
    ⟨("123456").data, 4, 0, 14, none⟩, ⟨("123456").data, 5, 0, 14, none⟩,
    ⟨("123456").data, 6, 0, 14, none⟩], 7⟩

theorem borrow_limit_boundary_witness :
    (borrow_book_by_patron stLimit (("123456").data) 1 0 true true).fst
      = .borrowed (("B").data) 14 :=
  (borrow_limit_boundary stLimit (("123456").data) 1 0 true true
    ⟨1, ("B").data, ("A").data, ("9781111111111").data, 10, 10⟩
    (by decide) (by decide) (by decide)).2 (by decide)

/-- C6: on an otherwise-permitted borrow, a failed record insert aborts with
the storage-error result and leaves the state (in particular availability)
unchanged; a failed availability update after a successful insert reports the
storage-error result while the created record remains and the books (so the
availability) are untouched. -/
theorem borrow_storage_failure_behavior (st : LibraryState) (patron : Str)
    (book_id : Nat) (now : Int) (book : Book) (updateOk : Bool)
    (hp : isValidPatronId patron = true)
    (hb : get_book_by_id st book_id = some book)
    (ha : 0 < book.available_copies)
    (hl : get_patron_borrow_count st patron ≤ 5) :
    borrow_book_by_patron st patron book_id now false updateOk
      = (.dbBorrowRecord, st) ∧
    (borrow_book_by_patron st patron book_id now true false).fst
      = .dbAvailability ∧
    (borrow_book_by_patron st patron book_id now true false).snd.books
      = st.books ∧
    (borrow_book_by_patron st patron book_id now true false).snd.records
      = st.records ++ [⟨patron, book_id, now, now + 14, none⟩] := by
  have hav : ¬ book.available_copies ≤ 0 := by omega
  have h5n : ¬ 5 < get_patron_borrow_count st patron := not_lt.mpr hl
  refine ⟨?_, ?_, ?_, ?_⟩ <;>
    simp [borrow_book_by_patron, hp, hb, hav, h5n, insert_borrow_record]

/-- Concrete fixture: one available book and no open loans. -/
def stFail : LibraryState :=
  ⟨[⟨1, ("B").data, ("A").data, ("9781111111111").data, 2, 2⟩], [], 2⟩

theorem borrow_storage_failure_behavior_witness :
    borrow_book_by_patron stFail (("123456").data) 1 0 false true
      = (.dbBorrowRecord, stFail) ∧
    (borrow_book_by_patron stFail (("123456").data) 1 0 true false).snd.records
      = stFail.records ++ [⟨("123456").data, 1, 0, 14, none⟩] := by
  have h := borrow_storage_failure_behavior stFail (("123456").data) 1 0
    ⟨1, ("B").data, ("A").data, ("9781111111111").data, 2, 2⟩ true
    (by decide) (by decide) (by decide) (by decide)
  exact ⟨h.1, h.2.2.2⟩

/-- C7: a permitted return that happens strictly after the loan's due date
reports the calendar-day difference as days late together with a fee of
exactly days_late * $0.50; a return on or before the due date reports the
plain on-time success message with no fee. -/
theorem return_late_fee_reporting (st : LibraryState) (patron : Str)
    (book_id : Nat) (now : Int) (book : Book) (r : BorrowRecord)
    (hp : isValidPatronId patron = true)
    (hb : get_book_by_id st book_id = some book)
    (hr : (get_patron_borrowed_books st patron).find?
      (fun x => x.book_id == book_id) = some r) :
    (r.due_date < now →
      (return_book_by_patron st patron book_id now true true).fst
        = .returnedLate (now - r.due_date) (((now - r.due_date : ℤ) : ℚ) * (1/2))) ∧
    (now ≤ r.due_date →
      (return_book_by_patron st patron book_id now true true).fst
        = .returnedOnTime book.title) := by
  constructor
  · intro hlate
    simp [return_book_by_patron, hp, hb, hr, hlate, returnLateFeeAmount]
  · intro hontime
    have : ¬ r.due_date < now := not_lt.mpr hontime
    simp [return_book_by_patron, hp, hb, hr, this]

/-- Concrete fixture: one loan of book 1 by patron 123456, due day 14. -/
def stRet : LibraryState :=
  ⟨[⟨1, ("B").data, ("A").data, ("9781111111111").data, 2, 1⟩],
   [⟨("123456").data, 1, 0, 14, none⟩], 2⟩

theorem return_late_fee_reporting_witness :
    (return_book_by_patron stRet (("123456").data) 1 17 true true).fst
      = .returnedLate 3 (((3 : ℤ) : ℚ) * (1/2)) :=
  (return_late_fee_reporting stRet (("123456").data) 1 17
    ⟨1, ("B").data, ("A").data, ("9781111111111").data, 2, 1⟩
    ⟨("123456").data, 1, 0, 14, none⟩
    (by decide) (by decide) (by decide)).1 (by decide)

theorem tier_cap_reached (d : Int) (hd : 19 ≤ d) :
    (calculate_late_fee_core 0 d).fee_amount = 15 := by
  unfold calculate_late_fee_core
  rw [if_neg (by omega : ¬ d ≤ 0)]
  have h7 : ¬ (d - 0) ≤ 7 := by omega
  have : lateFeeTier (d - 0) = 7 * (1 / 2) + ((d - 0 - 7 : ℤ) : ℚ) * 1 := by
    rw [lateFeeTier, if_neg h7]
  rw [this, min_eq_right ?hle]
  · norm_num [round2]
  case hle =>
    have : (19 : ℚ) ≤ ((d : ℤ) : ℚ) := by exact_mod_cast hd
    push_cast
    linarith

/-- C10: whenever a return reports a late result, the fee it reports is
exactly days_late * $0.50 with no ceiling; so for any return more than 30
days late the reported fee strictly exceeds the $15.00 cap that the tiered
fee calculator enforces (which yields exactly 15 there). -/
theorem return_fee_uncapped (st : LibraryState) (patron : Str) (book_id : Nat)
    (now : Int) (updOk availOk : Bool) (d : Int) (f : ℚ)
    (h : (return_book_by_patron st patron book_id now updOk availOk).fst
      = .returnedLate d f) :
    f = (d : ℚ) * (1 / 2) ∧
    (30 < d → 15 < f ∧ (calculate_late_fee_core 0 d).fee_amount = 15) := by
  unfold return_book_by_patron at h
  split at h
  · simp at h
  · split at h
    · simp at h
    · split at h
      · simp at h
      · split at h
        · simp at h
        · split at h
          · simp at h
          · split at h
            · rw [Prod.fst] at h
              rw [ReturnResult.returnedLate.injEq] at h
              obtain ⟨hd, hf⟩ := h
              constructor
              · rw [← hf, ← hd]
                rfl
              · intro h30
                rw [← hd] at h30
                refine ⟨?_, ?_⟩
                · rw [← hf]
                  unfold returnLateFeeAmount
                  have hc : (30 : ℚ) < _ := Int.cast_lt.mpr h30
                  linarith
                · rw [← hd]
                  exact tier_cap_reached _ (by omega)
            · simp at h

theorem return_fee_uncapped_witness :
    (return_book_by_patron stRet (("123456").data) 1 45 true true).fst
      = .returnedLate 31 (returnLateFeeAmount 31) ∧
    ((31 : ℤ) : ℚ) * (1 / 2) = returnLateFeeAmount 31 ∧
    15 < returnLateFeeAmount 31 ∧
    (calculate_late_fee_core 0 31).fee_amount = 15 := by
  have hres : (return_book_by_patron stRet (("123456").data) 1 45 true true).fst
      = .returnedLate 31 (returnLateFeeAmount 31) := by
    rw [show (return_book_by_patron stRet (("123456").data) 1 45 true true).fst
        = .returnedLate (45 - 14) (returnLateFeeAmount (45 - 14)) from rfl]
    norm_num
  have h := return_fee_uncapped stRet (("123456").data) 1 45 true true 31
    (returnLateFeeAmount 31) hres
  exact ⟨hres, h.1.symm, (h.2 (by omega)).1, (h.2 (by omega)).2⟩

/-- The seven validation rules of `add`, indexed in the order the spec lists
them, each as an unordered predicate on the inputs (rule 4 is the source's
ISBN format check). -/
def addRuleFails (st : LibraryState) (title author isbn : Str)
    (copies : Int) : Nat → Bool
  | 0 => (pyStrip title).isEmpty
  | 1 => decide (200 < (pyStrip title).length)
  | 2 => (pyStrip author).isEmpty
  | 3 => decide (100 < (pyStrip author).length)
  | 4 => decide (isbn.length ≠ 13)
  | 5 => decide (copies ≤ 0)
  | 6 => (get_book_by_isbn st isbn).isSome
  | _ => false

/-- The message class each rule produces on failure. -/
def addRuleMsg : Nat → AddResult
  | 0 => .titleRequired
  | 1 => .titleTooLong
  | 2 => .authorRequired
  | 3 => .authorTooLong
  | 4 => .isbnFormat
  | 5 => .copiesInvalid
  | 6 => .duplicateIsbn
  | _ => .added

/-- C5: with storage succeeding, every rejected `add` returns exactly the
message class of the first failing rule in the order title presence, title
length, author presence, author length, isbn format, copies validity,
duplicate isbn; and on inputs passing all field validations, `add` is
rejected iff a book with that isbn already exists. -/
theorem add_first_failing_rule (st : LibraryState) (title author isbn : Str)
    (copies : Int) :
    ((add_book_to_catalog st title author isbn copies true).fst ≠ .added →
      ∃ i, i < 7 ∧ addRuleFails st title author isbn copies i = true ∧
        (∀ j, j < i → addRuleFails st title author isbn copies j = false) ∧
        (add_book_to_catalog st title author isbn copies true).fst
          = addRuleMsg i) ∧
    ((∀ i, i < 6 → addRuleFails st title author isbn copies i = false) →
      ((add_book_to_catalog st title author isbn copies true).fst ≠ .added
        ↔ (get_book_by_isbn st isbn).isSome = true)) := by
  unfold add_book_to_catalog
  split_ifs with h0 h1 h2 h3 h4 h5 h6 h7
  · refine ⟨fun _ => ⟨0, by norm_num, by simp [addRuleFails, h0], ?_, rfl⟩, ?_⟩
    · intro j hj
      omega
    · intro hall
      exact absurd (hall 0 (by norm_num)) (by simp [addRuleFails, h0])
  · refine ⟨fun _ => ⟨1, by norm_num, by simp [addRuleFails, h1], ?_, rfl⟩, ?_⟩
    · intro j hj
      interval_cases j <;> simp_all [addRuleFails]
    · intro hall
      exact absurd (hall 1 (by norm_num)) (by simp [addRuleFails, h1])
  · refine ⟨fun _ => ⟨2, by norm_num, by simp [addRuleFails, h2], ?_, rfl⟩, ?_⟩
    · intro j hj
      interval_cases j <;> simp_all [addRuleFails]
    · intro hall
      exact absurd (hall 2 (by norm_num)) (by simp [addRuleFails, h2])
  · refine ⟨fun _ => ⟨3, by norm_num, by simp [addRuleFails, h3], ?_, rfl⟩, ?_⟩
    · intro j hj
      interval_cases j <;> simp_all [addRuleFails]
    · intro hall
      exact absurd (hall 3 (by norm_num)) (by simp [addRuleFails, h3])
  · refine ⟨fun _ => ⟨4, by norm_num, by simp [addRuleFails, h4], ?_, rfl⟩, ?_⟩
    · intro j hj
      interval_cases j <;> simp_all [addRuleFails]
    · intro hall
      exact absurd (hall 4 (by norm_num)) (by simp [addRuleFails, h4])
  · refine ⟨fun _ => ⟨5, by norm_num, by simp [addRuleFails, h5], ?_, rfl⟩, ?_⟩
    · intro j hj
      interval_cases j <;> simp_all [addRuleFails]
    · intro hall
      exact absurd (hall 5 (by norm_num)) (by simp [addRuleFails, h5])
  · refine ⟨fun _ => ⟨6, by norm_num, by simp [addRuleFails, h6], ?_, rfl⟩, ?_⟩
    · intro j hj
      interval_cases j <;> simp_all [addRuleFails]
    · intro _
      simp [addRuleFails, h6]
  · refine ⟨fun hne => absurd rfl hne, fun _ => ?_⟩
    simp [addRuleFails, h6]
  · exact absurd rfl h7

theorem add_first_failing_rule_witness :
    (∃ i, i < 7 ∧
      addRuleFails ⟨[], [], 1⟩ [] (("A").data) (("9781111111111").data) 1 i
        = true ∧
      (∀ j, j < i →
        addRuleFails ⟨[], [], 1⟩ [] (("A").data) (("9781111111111").data) 1 j
          = false) ∧
      (add_book_to_catalog ⟨[], [], 1⟩ [] (("A").data)
        (("9781111111111").data) 1 true).fst = addRuleMsg i) ∧
    ((add_book_to_catalog ⟨[], [], 1⟩ (("T").data) (("A").data)
        (("9781111111111").data) 1 true).fst ≠ .added
      ↔ (get_book_by_isbn ⟨[], [], 1⟩ (("9781111111111").data)).isSome
          = true) :=
  ⟨(add_first_failing_rule ⟨[], [], 1⟩ [] (("A").data)
      (("9781111111111").data) 1).1 (by decide),
   (add_first_failing_rule ⟨[], [], 1⟩ (("T").data) (("A").data)
      (("9781111111111").data) 1).2
     (by intro i hi; interval_cases i
         all_goals decide)⟩

theorem find_self_of_nodup_key (l : List BorrowRecord) (r : BorrowRecord)
    (hnd : (l.map (fun x => x.book_id)).Nodup) (hr : r ∈ l) :
    l.find? (fun x => x.book_id == r.book_id) = some r := by
  induction l with
  | nil => cases hr
  | cons a t ih =>
    rcases List.mem_cons.mp hr with h | h
    · subst h
      simp [List.find?]
    · have hne : a.book_id ≠ r.book_id := by
        intro he
        have hmem : r.book_id ∈ t.map (fun x => x.book_id) :=
          List.mem_map_of_mem _ h
        exact (List.nodup_cons.mp hnd).1 (by simpa [he] using hmem)
      rw [List.find?_cons_of_neg _ (by simp [hne])]
      exact ih (List.nodup_cons.mp hnd).2 h

/-- C8: for a valid patron (whose open loans reference distinct existing
books), the report's total fees equal the sum, over the open loans, of the
tiered fee calculator's fee_amount for the overdue ones — non-overdue loans
contribute nothing — with rounding to 2 decimals applied to the total. -/
theorem report_total_fees_sum (st : LibraryState) (patron : Str) (now : Int)
    (hp : isValidPatronId patron = true)
    (hnd : ((get_patron_borrowed_books st patron).map
      (fun r => r.book_id)).Nodup)
    (hex : ∀ r ∈ get_patron_borrowed_books st patron,
      (get_book_by_id st r.book_id).isSome = true) :
    (get_patron_status_report st patron now).total_fees
      = round2 (((get_patron_borrowed_books st patron).map (fun r =>
          if r.due_date < now then
            (calculate_late_fee_core r.due_date now).fee_amount
          else 0)).sum) := by
  unfold get_patron_status_report
  rw [hp]
  simp only [Bool.not_true, Bool.false_eq_true, if_false]
  congr 1
  refine congrArg List.sum (List.map_congr_left ?_)
  intro r hr
  by_cases hod : r.due_date < now
  · obtain ⟨bk, hbk⟩ := Option.isSome_iff_exists.mp (hex r hr)
    rw [if_pos (by simp [is_overdue, hod]), if_pos hod,
      calculate_late_fee_for_book, hp]
    simp only [Bool.not_true, Bool.false_eq_true, if_false, hbk,
      find_self_of_nodup_key _ r hnd hr]
  · rw [if_neg (by simp [is_overdue, hod]), if_neg hod]

/-- Concrete fixture: two open loans, one overdue at day 20, one not. -/
def stRep : LibraryState :=
  ⟨[⟨1, ("B1").data, ("A").data, ("9781111111111").data, 1, 0⟩,
    ⟨2, ("B2").data, ("A").data, ("9782222222222").data, 1, 0⟩],
   [⟨("123456").data, 1, 0, 14, none⟩, ⟨("123456").data, 2, 10, 24, none⟩], 3⟩

theorem report_total_fees_sum_witness :
    isValidPatronId (("123456").data) = true ∧
    ((get_patron_borrowed_books stRep (("123456").data)).map
      (fun r => r.book_id)).Nodup ∧
    (∀ r ∈ get_patron_borrowed_books stRep (("123456").data),
      (get_book_by_id stRep r.book_id).isSome = true) ∧
    (get_patron_status_report stRep (("123456").data) 20).total_fees
      = round2 (((get_patron_borrowed_books stRep (("123456").data)).map
          (fun r =>
            if r.due_date < 20 then
              (calculate_late_fee_core r.due_date 20).fee_amount
            else 0)).sum) :=
  ⟨by decide, by decide, by decide,
   report_total_fees_sum stRep (("123456").data) 20
     (by decide) (by decide) (by decide)⟩

theorem dropWhile_eq_self_of_none (p : Char → Bool) (l : Str)
    (h : ∀ c ∈ l, p c = false) : l.dropWhile p = l := by
  cases l with
  | nil => rfl
  | cons a t =>
    rw [List.dropWhile_cons, h a (List.mem_cons_self a t)]
    simp

theorem digit_not_whitespace (c : Char) (h : c.isDigit = true) :
    c.isWhitespace = false := by
  rcases Bool.eq_false_or_eq_true c.isWhitespace with hw | hw
  · exfalso
    unfold Char.isWhitespace at hw
    simp only [Bool.or_eq_true, decide_eq_true_eq] at hw
    rcases hw with ((h1 | h1) | h1) | h1 <;> subst h1 <;>
      exact absurd h (by decide)
  · exact hw

theorem pyStrip_of_all_digits (s : Str) (h : s.all Char.isDigit = true) :
    pyStrip s = s := by
  have hniw : ∀ c ∈ s, c.isWhitespace = false := fun c hc =>
    digit_not_whitespace c (List.all_eq_true.mp h c hc)
  unfold pyStrip
  rw [dropWhile_eq_self_of_none _ _ hniw,
    dropWhile_eq_self_of_none _ _ (fun c hc => hniw c (List.mem_reverse.mp hc)),
    List.reverse_reverse]

theorem mem_insertByTitle (a b : Book) (l : List Book) :
    a ∈ insertByTitle b l ↔ a = b ∨ a ∈ l := by
  induction l with
  | nil => simp [insertByTitle]
  | cons c t ih =>
    rw [insertByTitle]
    split
    · simp
    · rw [List.mem_cons, ih, List.mem_cons]
      tauto

theorem mem_sortByTitle (a : Book) (l : List Book) :
    a ∈ sortByTitle l ↔ a ∈ l := by
  induction l with
  | nil => simp [sortByTitle]
  | cons b t ih => rw [sortByTitle, mem_insertByTitle, ih, List.mem_cons]

/-- C9: a book successfully added with title "Zzz" and a 13-digit isbn
appears in a title search for "Zzz" and in an isbn search for that isbn, and
appears in neither search when the term does not match (title matching is
case-insensitive substring, isbn matching exact). -/
theorem search_round_trip (st st2 : LibraryState) (author isbn : Str)
    (copies : Int) (b : Book)
    (hdig : isbn.all Char.isDigit = true)
    (hadd : add_book_to_catalog st (("Zzz").data) author isbn copies true
      = (.added, st2))
    (hb : b = ⟨st.nextId, ("Zzz").data, pyStrip author, isbn, copies, copies⟩) :
    b ∈ search_books_in_catalog st2 (("Zzz").data) (("title").data) ∧
    b ∈ search_books_in_catalog st2 isbn (("isbn").data) ∧
    (∀ term, likeMatch (pyStrip term) (("Zzz").data) = false →
      b ∉ search_books_in_catalog st2 term (("title").data)) ∧
    (∀ term, pyStrip term ≠ isbn →
      b ∉ search_books_in_catalog st2 term (("isbn").data)) := by
  unfold add_book_to_catalog at hadd
  split_ifs at hadd with h0 h1 h2 h3 h4 h5 h6 h7 <;> simp at hadd
  have hst2 : st2
      = insert_book st (pyStrip (("Zzz").data)) (pyStrip author) isbn
          copies copies :=
    hadd.symm
  subst hst2
  have hstrip : pyStrip isbn = isbn := pyStrip_of_all_digits isbn hdig
  have hlen : isbn.length = 13 := not_ne_iff.mp h4
  have hemp : isbn.isEmpty = false := by
    cases isbn with
    | nil => simp at hlen
    | cons a t => rfl
  have hbt : b.title = ("Zzz").data := by rw [hb]
  have hbisbn : b.isbn = isbn := by rw [hb]
  have hbmem : b ∈ (insert_book st (pyStrip (("Zzz").data)) (pyStrip author)
      isbn copies copies).books := by
    rw [insert_book, show pyStrip (("Zzz").data) = ("Zzz").data from by decide,
      ← hb]
    exact List.mem_append_right _ (List.mem_singleton.mpr rfl)
  refine ⟨?_, ?_, ?_, ?_⟩
  · show b ∈ sortByTitle ((insert_book st (pyStrip (("Zzz").data))
      (pyStrip author) isbn copies copies).books.filter
        (fun bk => likeMatch (pyStrip (("Zzz").data)) bk.title))
    rw [mem_sortByTitle, List.mem_filter]
    refine ⟨hbmem, ?_⟩
    rw [hbt]
    decide
  · unfold search_books_in_catalog
    rw [hstrip]
    rw [if_neg (by rw [hemp]; exact Bool.false_ne_true),
      if_neg (by decide), if_pos (by decide)]
    rw [mem_sortByTitle, List.mem_filter]
    refine ⟨hbmem, ?_⟩
    rw [hbisbn]
    simp
  · intro term hterm hmem
    unfold search_books_in_catalog at hmem
    split_ifs at hmem with g0 g1 g2 g3
    · simp at hmem
    · simp at hmem
    · exact absurd g2 (by decide)
    · rw [mem_sortByTitle, List.mem_filter, hbt] at hmem
      have hx := hmem.2
      rw [hterm] at hx
      exact absurd hx Bool.false_ne_true
    · exact absurd (by decide : (("title").data == ("title").data) = true) g3
  · intro term hterm hmem
    unfold search_books_in_catalog at hmem
    split_ifs at hmem with g0 g1 g2 g3
    · simp at hmem
    · simp at hmem
    · rw [mem_sortByTitle, List.mem_filter, hbisbn] at hmem
      have hx := beq_iff_eq.mp hmem.2
      exact hterm (hx.symm)
    · exact absurd (by decide : (("isbn").data == ("isbn").data) = true) g2
    · exact absurd (by decide : (("isbn").data == ("isbn").data) = true) g2

/-- Concrete fixture: the catalog state before and after adding "Zzz". -/
def bZ : Book := ⟨1, ("Zzz").data, ("A").data, ("9781234567890").data, 1, 1⟩

def stZ2 : LibraryState := ⟨[bZ], [], 2⟩

theorem search_round_trip_witness :
    add_book_to_catalog ⟨[], [], 1⟩ (("Zzz").data) (("A").data)
        (("9781234567890").data) 1 true = (.added, stZ2) ∧
    bZ ∈ search_books_in_catalog stZ2 (("Zzz").data) (("title").data) ∧
    bZ ∈ search_books_in_catalog stZ2 (("9781234567890").data)
        (("isbn").data) :=
  ⟨by decide,
   (search_round_trip ⟨[], [], 1⟩ stZ2 (("A").data) (("9781234567890").data)
      1 bZ (by decide) (by decide) (by decide)).1,
   (search_round_trip ⟨[], [], 1⟩ stZ2 (("A").data) (("9781234567890").data)
      1 bZ (by decide) (by decide) (by decide)).2.1⟩

/-- A circulation operation on the library (storage writes succeeding). -/
inductive LibOp
  | borrowOp (patron : Str) (book_id : Nat) (now : Int)
  | returnOp (patron : Str) (book_id : Nat) (now : Int)

/-- Apply one operation through the service entry points. -/
def applyOp (st : LibraryState) : LibOp → LibraryState
  | .borrowOp p bid now => (borrow_book_by_patron st p bid now true true).snd
  | .returnOp p bid now => (return_book_by_patron st p bid now true true).snd

/-- Run a sequence of operations. -/
def runOps (st : LibraryState) : List LibOp → LibraryState
  | [] => st
  | op :: ops => runOps (applyOp st op) ops

/-- Number of open loans of a given book across all patrons. -/
def openLoansForBook (rs : List BorrowRecord) (book_id : Nat) : Nat :=
  (rs.filter (fun r => r.book_id == book_id && recordOpen r)).length

/-- The inductive invariant: book ids are unique, availability is
non-negative, and availability plus open loans equals total copies. -/
def StateInv (st : LibraryState) : Prop :=
  (st.books.map Book.id).Nodup ∧
  ∀ b ∈ st.books, 0 ≤ b.available_copies ∧
    b.available_copies + (openLoansForBook st.records b.id : ℤ) = b.total_copies

theorem openLoans_cons (r : BorrowRecord) (rs : List BorrowRecord) (q : Nat) :
    openLoansForBook (r :: rs) q
      = (if (r.book_id == q && recordOpen r) = true then 1 else 0)
        + openLoansForBook rs q := by
  unfold openLoansForBook
  rw [List.filter_cons]
  split
  · simp [Nat.add_comm]
  · simp

theorem openLoans_append_new (rs : List BorrowRecord) (p : Str) (bid q : Nat)
    (bd dd : Int) :
    openLoansForBook (rs ++ [⟨p, bid, bd, dd, none⟩]) q
      = openLoansForBook rs q + (if q = bid then 1 else 0) := by
  unfold openLoansForBook
  rw [List.filter_append, List.length_append]
  congr 1
  by_cases hq : q = bid
  · subst hq
    simp [recordOpen]
  · rw [if_neg hq]
    simp [recordOpen, beq_eq_false_iff_ne.mpr (fun he => hq he.symm)]

theorem closeFirstOpen_counts (p : Str) (bid : Nat) (d : Int)
    (rs : List BorrowRecord)
    (hex : ∃ r ∈ rs,
      (r.patron_id == p && r.book_id == bid && recordOpen r) = true) :
    openLoansForBook (closeFirstOpen p bid d rs) bid + 1
        = openLoansForBook rs bid ∧
    ∀ q, q ≠ bid →
      openLoansForBook (closeFirstOpen p bid d rs) q
        = openLoansForBook rs q := by
  induction rs with
  | nil =>
    obtain ⟨r, hr, _⟩ := hex
    cases hr
  | cons a t ih =>
    rw [closeFirstOpen]
    split
    · rename_i hcond
      rw [Bool.and_eq_true, Bool.and_eq_true] at hcond
      obtain ⟨⟨hp, hbid⟩, ho⟩ := hcond
      have hbid' : a.book_id = bid := beq_iff_eq.mp hbid
      have hmod : recordOpen { a with return_date := some d } = false := rfl
      constructor
      · rw [openLoans_cons, openLoans_cons a t bid]
        simp only [hmod, hbid, ho, Bool.and_true, Bool.and_false]
        simp only [Bool.false_eq_true, if_true, if_false]
        omega
      · intro q hq
        have hne2 : (a.book_id == q) = false :=
          beq_eq_false_iff_ne.mpr (fun he => hq ((hbid' ▸ he).symm))
        rw [openLoans_cons, openLoans_cons a t q]
        simp only [hmod, hne2, Bool.and_false, Bool.false_and]
    · rename_i hcond
      have hex2 : ∃ r ∈ t,
          (r.patron_id == p && r.book_id == bid && recordOpen r) = true := by
        obtain ⟨r, hr, hrm⟩ := hex
        rcases List.mem_cons.mp hr with he | he
        · exact absurd (he ▸ hrm) hcond
        · exact ⟨r, he, hrm⟩
      obtain ⟨ih1, ih2⟩ := ih hex2
      constructor
      · rw [openLoans_cons, openLoans_cons a t bid]
        omega
      · intro q hq
        rw [openLoans_cons, openLoans_cons a t q, ih2 q hq]

theorem borrow_snd_cases (st : LibraryState) (p : Str) (bid : Nat) (now : Int) :
    (borrow_book_by_patron st p bid now true true).snd = st ∨
    (∃ book, get_book_by_id st bid = some book ∧
      0 < book.available_copies ∧
      (borrow_book_by_patron st p bid now true true).snd
        = update_book_availability
            (insert_borrow_record st p bid now (now + 14)) bid (-1)) := by
  unfold borrow_book_by_patron
  split
  · exact Or.inl rfl
  · split
    · exact Or.inl rfl
    · rename_i book heq
      split
      · exact Or.inl rfl
      · split
        · exact Or.inl rfl
        · rename_i hav hlim
          exact Or.inr ⟨book, heq, by omega, rfl⟩

theorem return_snd_cases (st : LibraryState) (p : Str) (bid : Nat) (now : Int) :
    (return_book_by_patron st p bid now true true).snd = st ∨
    (∃ r0, (get_patron_borrowed_books st p).find?
        (fun x => x.book_id == bid) = some r0 ∧
      (return_book_by_patron st p bid now true true).snd
        = update_book_availability
            (update_borrow_record_return_date st p bid now) bid 1) := by
  unfold return_book_by_patron
  split
  · exact Or.inl rfl
  · split
    · exact Or.inl rfl
    · split
      · exact Or.inl rfl
      · rename_i book heq r0 hfind
        right
        refine ⟨r0, hfind, ?_⟩
        split
        · rename_i habs
          exact absurd habs (by simp)
        · dsimp only
          split
          · rfl
          · rfl

theorem update_books_idmap (st : LibraryState) (bid : Nat) (delta : Int) :
    (update_book_availability st bid delta).books.map Book.id
      = st.books.map Book.id := by
  unfold update_book_availability
  simp only [List.map_map]
  apply List.map_congr_left
  intro b hb
  simp only [Function.comp_apply]
  split <;> rfl

theorem inv_borrow_success (st : LibraryState) (p : Str) (bid : Nat)
    (now : Int) (book : Book)
    (hinv : StateInv st)
    (heq : get_book_by_id st bid = some book)
    (hpos : 0 < book.available_copies) :
    StateInv (update_book_availability
      (insert_borrow_record st p bid now (now + 14)) bid (-1)) := by
  obtain ⟨hnd, hall⟩ := hinv
  have heq2 : st.books.find? (fun b => b.id == bid) = some book := heq
  have hbmem : book ∈ st.books := List.mem_of_find?_eq_some heq2
  have hpa := @List.find?_some Book (fun b => b.id == bid) book st.books heq2
  have hbid : book.id = bid := by simpa using hpa
  constructor
  · rw [update_books_idmap]
    exact hnd
  · intro c' hc'
    obtain ⟨c, hc, hfc⟩ := List.mem_map.mp hc'
    have hcm : c ∈ st.books := hc
    have hrec : (update_book_availability
        (insert_borrow_record st p bid now (now + 14)) bid (-1)).records
        = st.records ++ [⟨p, bid, now, now + 14, none⟩] := rfl
    rw [hrec, openLoans_append_new]
    by_cases hid : c.id = bid
    · have hcb : c = book :=
        List.inj_on_of_nodup_map hnd hc hbmem (by rw [hid, hbid])
      have hbtrue : (c.id == bid) = true := beq_iff_eq.mpr hid
      have hid' : c'.id = c.id := by rw [← hfc]; simp [hbtrue]
      have hav' : c'.available_copies = c.available_copies + (-1) := by
        rw [← hfc]; simp [hbtrue]
      have htot' : c'.total_copies = c.total_copies := by
        rw [← hfc]; simp [hbtrue]
      obtain ⟨hnn0, hsum⟩ := hall c hcm
      have hposc : 0 < c.available_copies := by rw [hcb]; exact hpos
      rw [hid] at hsum
      rw [hid', hid, if_pos rfl, hav', htot']
      push_cast
      omega
    · have hbfalse : (c.id == bid) = false := beq_eq_false_iff_ne.mpr hid
      have hfc' : c' = c := by rw [← hfc]; simp [hbfalse]
      obtain ⟨hnn0, hsum⟩ := hall c hcm
      rw [hfc', if_neg hid]
      push_cast
      omega

theorem inv_return_success (st : LibraryState) (p : Str) (bid : Nat)
    (now : Int) (r0 : BorrowRecord)
    (hinv : StateInv st)
    (hfind : (get_patron_borrowed_books st p).find?
      (fun x => x.book_id == bid) = some r0) :
    StateInv (update_book_availability
      (update_borrow_record_return_date st p bid now) bid 1) := by
  obtain ⟨hnd, hall⟩ := hinv
  have hr0mem := List.mem_of_find?_eq_some hfind
  have hr0bid := @List.find?_some BorrowRecord (fun x => x.book_id == bid) r0
    (get_patron_borrowed_books st p) hfind
  have hmf := List.mem_filter.mp hr0mem
  have hex : ∃ r ∈ st.records,
      (r.patron_id == p && r.book_id == bid && recordOpen r) = true := by
    refine ⟨r0, hmf.1, ?_⟩
    have h2 := hmf.2
    rw [Bool.and_eq_true] at h2
    rw [Bool.and_eq_true, Bool.and_eq_true]
    exact ⟨⟨h2.1, hr0bid⟩, h2.2⟩
  obtain ⟨hcnt1, hcnt2⟩ := closeFirstOpen_counts p bid now st.records hex
  constructor
  · rw [update_books_idmap]
    exact hnd
  · intro c' hc'
    obtain ⟨c, hc, hfc⟩ := List.mem_map.mp hc'
    have hcm : c ∈ st.books := hc
    have hrec : (update_book_availability
        (update_borrow_record_return_date st p bid now) bid 1).records
        = closeFirstOpen p bid now st.records := rfl
    rw [hrec]
    by_cases hid : c.id = bid
    · have hbtrue : (c.id == bid) = true := beq_iff_eq.mpr hid
      have hid' : c'.id = c.id := by rw [← hfc]; simp [hbtrue]
      have hav' : c'.available_copies = c.available_copies + 1 := by
        rw [← hfc]; simp [hbtrue]
      have htot' : c'.total_copies = c.total_copies := by
        rw [← hfc]; simp [hbtrue]
      obtain ⟨hnn0, hsum⟩ := hall c hcm
      rw [hid] at hsum
      rw [hid', hid, hav', htot']
      omega
    · have hbfalse : (c.id == bid) = false := beq_eq_false_iff_ne.mpr hid
      have hfc' : c' = c := by rw [← hfc]; simp [hbfalse]
      obtain ⟨hnn0, hsum⟩ := hall c hcm
      rw [hfc']
      rw [hcnt2 c.id hid]
      exact ⟨hnn0, hsum⟩

theorem inv_applyOp (st : LibraryState) (op : LibOp) (h : StateInv st) :
    StateInv (applyOp st op) := by
  cases op with
  | borrowOp p bid now =>
    rcases borrow_snd_cases st p bid now with hcase | ⟨book, heq, hpos, hcase⟩
    · simp only [applyOp]
      rw [hcase]
      exact h
    · simp only [applyOp]
      rw [hcase]
      exact inv_borrow_success st p bid now book h heq hpos
  | returnOp p bid now =>
    rcases return_snd_cases st p bid now with hcase | ⟨r0, hfind, hcase⟩
    · simp only [applyOp]
      rw [hcase]
      exact h
    · simp only [applyOp]
      rw [hcase]
      exact inv_return_success st p bid now r0 h hfind

theorem inv_runOps (ops : List LibOp) :
    ∀ st, StateInv st → StateInv (runOps st ops) := by
  induction ops with
  | nil =>
    intro st h
    exact h
  | cons op ops ih =>
    intro st h
    exact ih _ (inv_applyOp st op h)

/-- C2: starting from a freshly added single book (available = total), any
sequence of borrow and return operations (with storage succeeding) keeps the
book's available_copies within the interval from 0 to total_copies. -/
theorem available_copies_bounded (ops : List LibOp) (bk : Book) (n : Nat)
    (hfresh : bk.available_copies = bk.total_copies)
    (hnn : 0 ≤ bk.available_copies) :
    ∀ b ∈ (runOps ⟨[bk], [], n⟩ ops).books,
      0 ≤ b.available_copies ∧ b.available_copies ≤ b.total_copies := by
  have hinv0 : StateInv ⟨[bk], [], n⟩ := by
    constructor
    · simp
    · intro b hb
      have hbk : b = bk := by simpa using hb
      subst hbk
      refine ⟨hnn, ?_⟩
      show b.available_copies + ((openLoansForBook [] b.id : ℕ) : ℤ)
        = b.total_copies
      simp [openLoansForBook, hfresh]
  intro b hb
  obtain ⟨h1, h2⟩ := (inv_runOps ops _ hinv0).2 b hb
  refine ⟨h1, ?_⟩
  omega

/-- Concrete fixture: one book with one copy, borrowed, returned, and
borrowed again by another patron. -/
def opsW : List LibOp :=
  [.borrowOp (("123456").data) 1 0, .returnOp (("123456").data) 1 20,
   .borrowOp (("654321").data) 1 21]

theorem available_copies_bounded_witness :
    (⟨1, ("B").data, ("A").data, ("9781111111111").data, 1, 0⟩ : Book)
      ∈ (runOps ⟨[⟨1, ("B").data, ("A").data, ("9781111111111").data, 1, 1⟩],
          [], 2⟩ opsW).books ∧
    (0 : Int) ≤ (1 : Int) ∧
    (0 ≤ (⟨1, ("B").data, ("A").data, ("9781111111111").data, 1, 0⟩
        : Book).available_copies ∧
      (⟨1, ("B").data, ("A").data, ("9781111111111").data, 1, 0⟩
        : Book).available_copies
        ≤ (⟨1, ("B").data, ("A").data, ("9781111111111").data, 1, 0⟩
            : Book).total_copies) :=
  ⟨by decide, by decide,
   available_copies_bounded opsW
     ⟨1, ("B").data, ("A").data, ("9781111111111").data, 1, 1⟩ 2
     rfl (by decide) _ (by decide)⟩
